import Mathlib

/-!
Verification of the students-database backend (`src/duckdb_demo.go`).

The handler + persistence layer is shallowly embedded: the `students`
table is a `List Student`, SQL statements become list operations, and
each HTTP handler becomes a function from the decoded request and the
current table to a response together with the table after the request.
`float64`/`FLOAT` values are modelled as `Rat` (exact rationals); machine
integers as `Int` (no value in this service approaches an overflow
boundary). Database-driver failures that depend on the environment
(a row insert failing inside a bulk transaction) are modelled by an
explicit failure oracle passed to the embedded handler.
-/

namespace StudentsDB

/-- A row of the single `students` table:
`students(id BIGINT PRIMARY KEY, name TEXT, age INTEGER, gpa FLOAT, organization_name TEXT)`. -/
structure Student where
  id : Int
  name : String
  age : Int
  gpa : Rat
  organization_name : String
deriving DecidableEq, Repr

/-- A decoded JSON request body for insert / update / bulk-insert rows
(fields `name`, `age`, `gpa`, `organization_name`). -/
structure StudentReq where
  name : String
  age : Int
  gpa : Rat
  organization_name : String
deriving DecidableEq, Repr

/-- The HTTP outcomes the handlers produce after a body has been decoded. -/
inductive Resp where
  | created (id : Int)
  | createdCount (count : Nat)
  | ok
  | badRequest (msg : String)
  | notFound (msg : String)
  | serverError (msg : String)
deriving DecidableEq, Repr

/-- Drops leading whitespace characters from a character list. -/
def dropLeadingWs : List Char → List Char
  | [] => []
  | c :: cs => if c.isWhitespace then dropLeadingWs cs else c :: cs

/-- Models Go `strings.TrimSpace`: strip leading and trailing whitespace
(leading pass, then the same pass on the reversal for the trailing end). -/
def trimSpace (s : String) : String :=
  ⟨(dropLeadingWs ((dropLeadingWs s.data).reverse)).reverse⟩

/-- Fold of `max` over the ids of a list of rows, seeded with `m`. -/
def maxFrom (m : Int) (t : List Student) : Int :=
  t.foldl (fun a s => max a s.id) m

/-- `SELECT COALESCE(MAX(id), 0) FROM students`: the maximum id of the
table, or `0` when the table is empty. -/
def coalesceMaxId : List Student → Int
  | [] => 0
  | s :: rest => maxFrom s.id rest

/-- `insertStudent` (src/duckdb_demo.go lines 64-122), after JSON decode:
trim name/organization, validate age then gpa, default empty organization
to "No Organization", compute `COALESCE(MAX(id),0)+1`, insert the row,
answer 201 with the new id. -/
def insertStudent (t : List Student) (r : StudentReq) : Resp × List Student :=
  let name := trimSpace r.name
  let org0 := trimSpace r.organization_name
  if r.age < 0 ∨ r.age > 120 then (.badRequest "Invalid age", t)
  else if r.gpa < 0 ∨ r.gpa > 4 then (.badRequest "Invalid GPA", t)
  else
    let org := if org0 = "" then "No Organization" else org0
    let newID := coalesceMaxId t + 1
    (.created newID, t ++ [⟨newID, name, r.age, r.gpa, org⟩])

theorem le_maxFrom_seed (m : Int) (t : List Student) : m ≤ maxFrom m t := by
  induction t generalizing m with
  | nil => exact le_refl m
  | cons s rest ih =>
    exact le_trans (le_max_left m s.id) (ih (max m s.id))

theorem mem_le_maxFrom {x : Student} {t : List Student} (m : Int)
    (hx : x ∈ t) : x.id ≤ maxFrom m t := by
  induction t generalizing m with
  | nil => cases hx
  | cons s rest ih =>
    rcases List.mem_cons.mp hx with h | h
    · subst h
      exact le_trans (le_max_right m x.id) (le_maxFrom_seed _ rest)
    · exact ih (max m s.id) h

theorem mem_le_coalesceMaxId {x : Student} {t : List Student}
    (hx : x ∈ t) : x.id ≤ coalesceMaxId t := by
  cases t with
  | nil => cases hx
  | cons s rest =>
    rcases List.mem_cons.mp hx with h | h
    · subst h
      exact le_maxFrom_seed _ rest
    · exact mem_le_maxFrom _ h

/-- C1: for every valid single insert (age in [0,120], gpa in [0.0,4.0]),
the id in the 201 response and stored in the appended row equals
`coalesceMaxId t + 1`, i.e. `1 + max(existing ids)`, which is `1` when
the table is empty. -/
theorem insert_assigns_succ_of_max (t : List Student) (r : StudentReq)
    (hal : 0 ≤ r.age) (hau : r.age ≤ 120) (hgl : 0 ≤ r.gpa) (hgu : r.gpa ≤ 4) :
    (insertStudent t r).1 = Resp.created (coalesceMaxId t + 1) ∧
    (∃ row, (insertStudent t r).2 = t ++ [row] ∧ row.id = coalesceMaxId t + 1) ∧
    (t = [] → coalesceMaxId t + 1 = 1) := by
  have h1 : ¬ (r.age < 0 ∨ r.age > 120) := by
    push_neg
    exact ⟨hal, hau⟩
  have h2 : ¬ (r.gpa < 0 ∨ r.gpa > 4) := by
    push_neg
    exact ⟨hgl, hgu⟩
  refine ⟨?_, ⟨⟨coalesceMaxId t + 1, trimSpace r.name, r.age, r.gpa,
    if trimSpace r.organization_name = "" then "No Organization"
    else trimSpace r.organization_name⟩, ?_, rfl⟩, ?_⟩
  · simp [insertStudent, h1, h2]
  · simp [insertStudent, h1, h2]
  · intro h
    subst h
    rfl

/-- Witness for C1: inserting a valid student into the empty table
returns id 1 and stores a row with id 1. -/
theorem insert_assigns_succ_of_max_witness :
    (insertStudent [] ⟨"Ada", 30, 3, "ACM"⟩).1 = Resp.created (coalesceMaxId [] + 1) ∧
    (∃ row, (insertStudent [] ⟨"Ada", 30, 3, "ACM"⟩).2 = [] ++ [row] ∧
      row.id = coalesceMaxId [] + 1) ∧
    (([] : List Student) = [] → coalesceMaxId [] + 1 = 1) :=
  insert_assigns_succ_of_max [] ⟨"Ada", 30, 3, "ACM"⟩
    (by norm_num) (by norm_num) (by norm_num) (by norm_num)

/-- C8: a single insert answers 400 and leaves the table unchanged exactly
when age < 0, age > 120, gpa < 0.0 or gpa > 4.0; the bounds themselves are
accepted. -/
theorem insert_badRequest_iff (t : List Student) (r : StudentReq) :
    ((∃ m, (insertStudent t r).1 = Resp.badRequest m) ∧ (insertStudent t r).2 = t) ↔
    (r.age < 0 ∨ r.age > 120 ∨ r.gpa < 0 ∨ r.gpa > 4) := by
  by_cases h1 : r.age < 0 ∨ r.age > 120
  · simp [insertStudent, h1]
    tauto
  · by_cases h2 : r.gpa < 0 ∨ r.gpa > 4
    · simp [insertStudent, h1, h2]
    · simp [insertStudent, h1, h2]

/-- Accumulates a decimal number from a character list; `none` as soon as
a non-digit appears. -/
def parseDigits : Nat → List Char → Option Nat
  | acc, [] => some acc
  | acc, c :: cs =>
    if c.isDigit then parseDigits (acc * 10 + (c.toNat - '0'.toNat)) cs else none

/-- Models Go `strconv.Atoi`, as used on the `{id}` path variable: an
optional sign followed by at least one digit, `none` on anything else. -/
def strconvAtoi (s : String) : Option Int :=
  match s.data with
  | [] => none
  | '-' :: cs => if cs = [] then none else (parseDigits 0 cs).map (fun n => -(n : Int))
  | '+' :: cs => if cs = [] then none else (parseDigits 0 cs).map (fun n => (n : Int))
  | cs => (parseDigits 0 cs).map (fun n => (n : Int))

/-- The net effect of formatting a float with `fmt` verb `%.2f` into the
SQL text and the database parsing the resulting decimal literal back:
the value rounded to the nearest hundredth. (Go rounds the underlying
binary value to nearest; the tie-breaking rule is immaterial here.) -/
def roundHundredth (q : Rat) : Rat := ((round (q * 100) : Int) : Rat) / 100

/-- `updateStudent` (src/duckdb_demo.go lines 126-233), after route match
and JSON decode: parse the id (400 on failure), trim name/organization,
validate age then gpa (400), default empty organization, check existence
via `SELECT COUNT(*) ... WHERE id=?` (404 when zero), then run the
string-interpolated `UPDATE` inside a transaction. The interpolation
quotes name/organization by doubling single quotes, which the SQL parser
undoes (a round trip, elided here), and formats gpa with `%.2f`, so the
stored gpa is the request gpa rounded to two decimals. -/
def updateStudent (t : List Student) (idStr : String) (r : StudentReq) :
    Resp × List Student :=
  match strconvAtoi idStr with
  | none => (.badRequest "Invalid student ID", t)
  | some id =>
    let name := trimSpace r.name
    let org0 := trimSpace r.organization_name
    if r.age < 0 ∨ r.age > 120 then (.badRequest "Age out of range", t)
    else if r.gpa < 0 ∨ r.gpa > 4 then (.badRequest "GPA out of range", t)
    else
      let org := if org0 = "" then "No Organization" else org0
      if t.countP (fun s => s.id == id) = 0 then (.notFound "Student not found", t)
      else
        (.ok, t.map (fun s =>
          if s.id = id then
            { id := s.id, name := name, age := r.age,
              gpa := roundHundredth r.gpa, organization_name := org }
          else s))

/-- `deleteStudent` (src/duckdb_demo.go lines 234-242): binds the raw
path variable into `DELETE FROM students WHERE id=?`; a non-integer id
makes the execution fail (500, table untouched), otherwise every row
with that id is removed and 200 is returned, with no existence check. -/
def deleteStudent (t : List Student) (idStr : String) : Resp × List Student :=
  match strconvAtoi idStr with
  | none => (.serverError "could not cast parameter to BIGINT", t)
  | some id => (.ok, t.filter (fun s => ¬ s.id = id))

/-- C9: updating an id absent from the table leaves the table completely
unchanged, and (when the body passes validation, which runs first) the
response is 404 "Student not found": the existence check precedes any
write and no UPDATE statement runs. -/
theorem update_missing_id_404 (t : List Student) (idStr : String) (id : Int)
    (r : StudentReq) (hid : strconvAtoi idStr = some id)
    (habs : ∀ s ∈ t, s.id ≠ id) :
    (updateStudent t idStr r).2 = t ∧
    ((0 ≤ r.age ∧ r.age ≤ 120 ∧ 0 ≤ r.gpa ∧ r.gpa ≤ 4) →
      (updateStudent t idStr r).1 = Resp.notFound "Student not found") := by
  have hcount : t.countP (fun s => s.id == id) = 0 := by
    rw [List.countP_eq_zero]
    intro s hs
    simpa using habs s hs
  unfold updateStudent
  rw [hid]
  by_cases h1 : r.age < 0 ∨ r.age > 120
  · constructor
    · simp [h1]
    · intro ⟨ha, hb, _, _⟩
      exact absurd h1 (by push_neg; exact ⟨ha, hb⟩)
  · by_cases h2 : r.gpa < 0 ∨ r.gpa > 4
    · constructor
      · simp [h1, h2]
      · intro ⟨_, _, hc, hd⟩
        exact absurd h2 (by push_neg; exact ⟨hc, hd⟩)
    · constructor
      · simp [h1, h2, hcount]
      · intro _
        simp [h1, h2, hcount]

/-- Witness for C9: updating id 7 in a one-row table with id 1 leaves the
table unchanged and answers 404. -/
theorem update_missing_id_404_witness :
    (updateStudent [⟨1, "Al", 20, 3, "X"⟩] "7" ⟨"Bo", 21, 2, "Y"⟩).2 =
      [⟨1, "Al", 20, 3, "X"⟩] ∧
    ((0 ≤ (21 : Int) ∧ (21 : Int) ≤ 120 ∧ 0 ≤ (2 : Rat) ∧ (2 : Rat) ≤ 4) →
      (updateStudent [⟨1, "Al", 20, 3, "X"⟩] "7" ⟨"Bo", 21, 2, "Y"⟩).1 =
        Resp.notFound "Student not found") :=
  update_missing_id_404 [⟨1, "Al", 20, 3, "X"⟩] "7" 7 ⟨"Bo", 21, 2, "Y"⟩
    (by decide) (by decide)

/-- Concrete table for the C4 counterexample. -/
def c4Table : List Student := [⟨1, "Al", 20, 3, "X"⟩]

/-- Concrete update request for the C4 counterexample: gpa 3.456. -/
def c4Req : StudentReq := ⟨"Bo", 21, (432 : Rat) / 125, "Y"⟩

/-- Counterexample to C4 as stated: updating the existing id 1 with the
valid gpa 3.456 stores gpa 3.46 (the `%.2f` interpolation), not the
request value 3.456, so the row does not "equal exactly the request
values". -/
theorem update_not_exact_gpa_cex :
    (updateStudent c4Table "1" c4Req).2 = [⟨1, "Bo", 21, (173 : Rat) / 50, "Y"⟩] ∧
    (173 : Rat) / 50 ≠ (432 : Rat) / 125 := by
  constructor
  · have h1 : ¬ (c4Req.age < 0 ∨ c4Req.age > 120) := by
      push_neg
      exact ⟨by norm_num [c4Req], by norm_num [c4Req]⟩
    have h2 : ¬ (c4Req.gpa < 0 ∨ c4Req.gpa > 4) := by
      push_neg
      exact ⟨by norm_num [c4Req], by norm_num [c4Req]⟩
    unfold updateStudent
    rw [show strconvAtoi "1" = some 1 from rfl]
    simp only [h1, h2, if_false]
    norm_num [c4Table, c4Req, trimSpace, dropLeadingWs, roundHundredth, round_eq]
    decide
  · norm_num

/-- C4 (amended): an update on an existing id with valid fields answers
200 and maps the table so that every row with the target id gets exactly
the request name (trimmed), age, organization (trimmed, defaulted to
"No Organization" when empty) and the request gpa rounded to two decimal
places, keeping its id; every other row is unchanged. -/
theorem update_full_replace (t : List Student) (idStr : String) (id : Int)
    (r : StudentReq) (hid : strconvAtoi idStr = some id)
    (hal : 0 ≤ r.age) (hau : r.age ≤ 120) (hgl : 0 ≤ r.gpa) (hgu : r.gpa ≤ 4)
    (hex : ∃ s ∈ t, s.id = id) :
    (updateStudent t idStr r).1 = Resp.ok ∧
    (updateStudent t idStr r).2 = t.map (fun s =>
      if s.id = id then
        { id := s.id, name := trimSpace r.name, age := r.age,
          gpa := roundHundredth r.gpa,
          organization_name :=
            if trimSpace r.organization_name = "" then "No Organization"
            else trimSpace r.organization_name }
      else s) := by
  have h1 : ¬ (r.age < 0 ∨ r.age > 120) := by
    push_neg
    exact ⟨hal, hau⟩
  have h2 : ¬ (r.gpa < 0 ∨ r.gpa > 4) := by
    push_neg
    exact ⟨hgl, hgu⟩
  have hcount : ¬ t.countP (fun s => s.id == id) = 0 := by
    rw [List.countP_eq_zero]
    push_neg
    obtain ⟨s, hs, hsid⟩ := hex
    exact ⟨s, hs, by simpa using hsid⟩
  unfold updateStudent
  rw [hid]
  constructor
  · simp [h1, h2, hcount]
  · simp [h1, h2, hcount]

/-- Witness for C4 (amended): the concrete update of c4Table by c4Req
answers 200 and rewrites row 1 as described (gpa 3.46). -/
theorem update_full_replace_witness :
    (updateStudent c4Table "1" c4Req).1 = Resp.ok ∧
    (updateStudent c4Table "1" c4Req).2 = c4Table.map (fun s =>
      if s.id = 1 then
        { id := s.id, name := trimSpace c4Req.name, age := c4Req.age,
          gpa := roundHundredth c4Req.gpa,
          organization_name :=
            if trimSpace c4Req.organization_name = "" then "No Organization"
            else trimSpace c4Req.organization_name }
      else s) :=
  update_full_replace c4Table "1" 1 c4Req (by decide) (by decide) (by decide)
    (by norm_num [c4Req]) (by norm_num [c4Req])
    ⟨⟨1, "Al", 20, 3, "X"⟩, by simp [c4Table], rfl⟩

/-- The loop body of `bulkInsertStudents`: for each row in order, run
`stmt.Exec(nextID, s.Name, s.Age, s.GPA, s.Org)` — modelled by the
failure oracle `fail`, where `fail i = some msg` means the exec of the
i-th row errors with `msg` — and on success append the row verbatim
(no trimming, no validation, no organization default) and increment the
id. The first failure aborts the loop with the error. -/
def bulkLoop (fail : Nat → Option String) :
    List StudentReq → Nat → Int → List Student → Except String (List Student)
  | [], _, _, acc => .ok acc
  | r :: rs, i, nextID, acc =>
    match fail i with
    | some e => .error e
    | none =>
      bulkLoop fail rs (i + 1) (nextID + 1)
        (acc ++ [⟨nextID, r.name, r.age, r.gpa, r.organization_name⟩])

/-- `bulkInsertStudents` (src/duckdb_demo.go lines 378-443), after JSON
decode: read `COALESCE(MAX(id),0)` once, begin a transaction, insert the
rows one by one with in-process consecutive ids; on the first row error
roll back (table unchanged) and answer 500 with
"Transaction failed due to database error: " plus the underlying
message; otherwise commit and answer 201 with the row count. -/
def bulkInsertStudents (fail : Nat → Option String) (t : List Student)
    (reqs : List StudentReq) : Resp × List Student :=
  let currentMaxID := coalesceMaxId t
  match bulkLoop fail reqs 0 (currentMaxID + 1) t with
  | .error e => (.serverError ("Transaction failed due to database error: " ++ e), t)
  | .ok t2 => (.createdCount reqs.length, t2)

/-- The rows a successful bulk insert appends: the requests in input
order, given consecutive ids starting at `base`, fields verbatim. -/
def assignRows : Int → List StudentReq → List Student
  | _, [] => []
  | base, r :: rs =>
    ⟨base, r.name, r.age, r.gpa, r.organization_name⟩ :: assignRows (base + 1) rs

theorem bulkInsertStudents_eq (fail : Nat → Option String) (t : List Student)
    (reqs : List StudentReq) :
    bulkInsertStudents fail t reqs =
      match bulkLoop fail reqs 0 (coalesceMaxId t + 1) t with
      | .error e => (.serverError ("Transaction failed due to database error: " ++ e), t)
      | .ok t2 => (.createdCount reqs.length, t2) := rfl

theorem bulkLoop_ok_of_none (reqs : List StudentReq) (i : Nat) (nextID : Int)
    (acc : List Student) (fail : Nat → Option String)
    (h : ∀ j, j < reqs.length → fail (i + j) = none) :
    bulkLoop fail reqs i nextID acc = .ok (acc ++ assignRows nextID reqs) := by
  induction reqs generalizing i nextID acc with
  | nil => simp [bulkLoop, assignRows]
  | cons r rs ih =>
    have h0 : fail i = none := by
      simpa using h 0 (Nat.succ_pos _)
    rw [bulkLoop, h0]
    rw [ih (i + 1) (nextID + 1) _ ?_]
    · simp [assignRows]
    · intro j hj
      have := h (j + 1) (by simpa using Nat.succ_lt_succ hj)
      simpa [Nat.add_assoc, Nat.add_comm, Nat.add_left_comm] using this

theorem bulkLoop_error_of_some (reqs : List StudentReq) (i : Nat) (nextID : Int)
    (acc : List Student) (fail : Nat → Option String)
    (h : ∃ j, j < reqs.length ∧ (fail (i + j)).isSome) :
    ∃ msg j, j < reqs.length ∧ fail (i + j) = some msg ∧
      bulkLoop fail reqs i nextID acc = .error msg := by
  induction reqs generalizing i nextID acc with
  | nil =>
    obtain ⟨j, hj, -⟩ := h
    exact absurd hj (by simp)
  | cons r rs ih =>
    cases hf : fail i with
    | some e =>
      exact ⟨e, 0, Nat.succ_pos _, by simpa using hf, by rw [bulkLoop, hf]⟩
    | none =>
      obtain ⟨j, hj, hs⟩ := h
      cases j with
      | zero =>
        rw [Nat.add_zero] at hs
        rw [hf] at hs
        cases hs
      | succ j' =>
        obtain ⟨msg, k, hk, hfk, hloop⟩ :=
          ih (i + 1) (nextID + 1)
            (acc ++ [⟨nextID, r.name, r.age, r.gpa, r.organization_name⟩])
            ⟨j', by simpa using Nat.lt_of_succ_lt_succ hj, by
              have : i + 1 + j' = i + (j' + 1) := by omega
              rw [this]
              exact hs⟩
        refine ⟨msg, k + 1, Nat.succ_lt_succ hk, ?_, ?_⟩
        · have : i + (k + 1) = i + 1 + k := by omega
          rw [this]
          exact hfk
        · rw [bulkLoop, hf]
          exact hloop

theorem assignRows_map_id (base : Int) (reqs : List StudentReq) :
    (assignRows base reqs).map (fun s => s.id) =
      (List.range reqs.length).map (fun i : Nat => base + (i : Int)) := by
  induction reqs generalizing base with
  | nil => simp [assignRows]
  | cons r rs ih =>
    simp only [assignRows, List.map_cons, List.length_cons,
      List.range_succ_eq_map, List.map_map]
    rw [List.cons.injEq]
    refine ⟨by simp, ?_⟩
    rw [ih (base + 1)]
    apply List.map_congr_left
    intro i _
    simp
    omega

/-- C2: a bulk insert reads the max id once (0 for an empty table) and,
when every row executes, appends exactly the requests in input order
with consecutive ids `max+1, max+2, ..., max+n`. -/
theorem bulk_assigns_consecutive_ids (t : List Student) (reqs : List StudentReq)
    (fail : Nat → Option String) (hok : ∀ j, j < reqs.length → fail j = none) :
    (bulkInsertStudents fail t reqs).2 = t ++ assignRows (coalesceMaxId t + 1) reqs ∧
    (assignRows (coalesceMaxId t + 1) reqs).map (fun s => s.id) =
      (List.range reqs.length).map (fun i : Nat => coalesceMaxId t + 1 + (i : Int)) := by
  constructor
  · rw [bulkInsertStudents_eq,
      bulkLoop_ok_of_none reqs 0 _ t fail (by simpa using hok)]
  · exact assignRows_map_id (coalesceMaxId t + 1) reqs

/-- Witness for C2 (spec example shape): with max id 5 in the table,
bulk-inserting three students assigns ids 6, 7, 8 in input order. -/
theorem bulk_assigns_consecutive_ids_witness :
    (bulkInsertStudents (fun _ => none) [⟨5, "E", 30, 2, "O"⟩]
        [⟨"P", 20, 3, "A"⟩, ⟨"Q", 21, 3, "B"⟩, ⟨"R", 22, 3, "C"⟩]).2 =
      [⟨5, "E", 30, 2, "O"⟩] ++
        assignRows (coalesceMaxId [⟨5, "E", 30, 2, "O"⟩] + 1)
          [⟨"P", 20, 3, "A"⟩, ⟨"Q", 21, 3, "B"⟩, ⟨"R", 22, 3, "C"⟩] ∧
    (assignRows (coalesceMaxId [⟨5, "E", 30, 2, "O"⟩] + 1)
        [⟨"P", 20, 3, "A"⟩, ⟨"Q", 21, 3, "B"⟩, ⟨"R", 22, 3, "C"⟩]).map
        (fun s => s.id) =
      (List.range 3).map (fun i : Nat => coalesceMaxId [⟨5, "E", 30, 2, "O"⟩] + 1 + (i : Int)) :=
  bulk_assigns_consecutive_ids [⟨5, "E", 30, 2, "O"⟩]
    [⟨"P", 20, 3, "A"⟩, ⟨"Q", 21, 3, "B"⟩, ⟨"R", 22, 3, "C"⟩]
    (fun _ => none) (fun _ _ => rfl)

/-- C3: bulk insert is atomic. If every row executes, all rows are
committed and the response is 201 with the row count; if executing any
row fails, the transaction is rolled back, the table is exactly
unchanged, and the response is 500 carrying the underlying error
message. -/
theorem bulk_insert_atomic (t : List Student) (reqs : List StudentReq)
    (fail : Nat → Option String) :
    ((∀ j, j < reqs.length → fail j = none) →
      bulkInsertStudents fail t reqs =
        (Resp.createdCount reqs.length, t ++ assignRows (coalesceMaxId t + 1) reqs)) ∧
    ((∃ j, j < reqs.length ∧ (fail j).isSome) →
      (bulkInsertStudents fail t reqs).2 = t ∧
      ∃ msg j, j < reqs.length ∧ fail j = some msg ∧
        (bulkInsertStudents fail t reqs).1 =
          Resp.serverError ("Transaction failed due to database error: " ++ msg)) := by
  constructor
  · intro hok
    rw [bulkInsertStudents_eq,
      bulkLoop_ok_of_none reqs 0 _ t fail (by simpa using hok)]
  · intro hbad
    obtain ⟨msg, j, hj, hfj, hloop⟩ :=
      bulkLoop_error_of_some reqs 0 (coalesceMaxId t + 1) t fail (by simpa using hbad)
    rw [Nat.zero_add] at hfj
    constructor
    · rw [bulkInsertStudents_eq, hloop]
    · refine ⟨msg, j, hj, hfj, ?_⟩
      rw [bulkInsertStudents_eq, hloop]

/-- Witness for C3: a two-request bulk where row 1 (0-based) fails with
"boom" leaves the one-row table unchanged and answers 500 with the boom
message; the same bulk with no failure commits both rows with count 2. -/
theorem bulk_insert_atomic_witness :
    (bulkInsertStudents (fun _ => none) [⟨5, "E", 30, 2, "O"⟩]
        [⟨"P", 20, 3, "A"⟩, ⟨"Q", 21, 3, "B"⟩] =
      (Resp.createdCount 2,
        [⟨5, "E", 30, 2, "O"⟩] ++
          assignRows (coalesceMaxId [⟨5, "E", 30, 2, "O"⟩] + 1)
            [⟨"P", 20, 3, "A"⟩, ⟨"Q", 21, 3, "B"⟩])) ∧
    ((bulkInsertStudents (fun i => if i = 1 then some "boom" else none)
        [⟨5, "E", 30, 2, "O"⟩] [⟨"P", 20, 3, "A"⟩, ⟨"Q", 21, 3, "B"⟩]).2 =
      [⟨5, "E", 30, 2, "O"⟩] ∧
      ∃ msg j, j < 2 ∧ (if j = 1 then some "boom" else none) = some msg ∧
        (bulkInsertStudents (fun i => if i = 1 then some "boom" else none)
          [⟨5, "E", 30, 2, "O"⟩] [⟨"P", 20, 3, "A"⟩, ⟨"Q", 21, 3, "B"⟩]).1 =
          Resp.serverError ("Transaction failed due to database error: " ++ msg)) := by
  constructor
  · exact (bulk_insert_atomic [⟨5, "E", 30, 2, "O"⟩]
      [⟨"P", 20, 3, "A"⟩, ⟨"Q", 21, 3, "B"⟩] (fun _ => none)).1 (fun _ _ => rfl)
  · exact (bulk_insert_atomic [⟨5, "E", 30, 2, "O"⟩]
      [⟨"P", 20, 3, "A"⟩, ⟨"Q", 21, 3, "B"⟩]
      (fun i => if i = 1 then some "boom" else none)).2 ⟨1, by simp, rfl⟩

/-- C5: evaluating the bulk-insert handler at a single row that single
insert would reject and normalize — age -1 (out of range), gpa 5 (out of
range), untrimmed name " Zed ", empty organization — shows bulk insert
performs no validation or normalization at all: it answers 201 with
count 1 and stores the row verbatim, where the claim requires 400 with
no rows written. -/
theorem bulk_insert_skips_validation :
    bulkInsertStudents (fun _ => none) [] [⟨" Zed ", -1, 5, ""⟩] =
      (Resp.createdCount 1, [⟨1, " Zed ", -1, 5, ""⟩]) ∧
    (insertStudent [] ⟨" Zed ", -1, 5, ""⟩).1 = Resp.badRequest "Invalid age" ∧
    (insertStudent [] ⟨" Zed ", -1, 5, ""⟩).2 = [] :=
  ⟨rfl, rfl, rfl⟩

/-- The raw query-string parameters of GET /students/filter. -/
structure FilterParams where
  ageMin : String
  ageMax : String
  gpaMin : String
  gpaMax : String
  organizations : String
deriving DecidableEq, Repr

/-- The error-discarding `ageMin, _ := strconv.Atoi(ageMinStr)`: the
parsed integer, or 0 when parsing fails (including the empty string). -/
def atoiOrZero (s : String) : Int := (strconvAtoi s).getD 0

/-- A float64 as `strconv.ParseFloat` returns it, under the file's
floats-as-Rat idealization: finite values kept as exact rationals, the
special values ±Inf and NaN kept apart. -/
inductive GoFloat where
  | finite (q : Rat)
  | negInf
  | posInf
  | nan
deriving DecidableEq, Repr

/-- The position of a float value in DuckDB's comparison order:
-Inf below every finite value, +Inf above them, and NaN equal to itself
and greater than every other value, infinity included. -/
def GoFloat.rank : GoFloat → Nat
  | .negInf => 0
  | .finite _ => 1
  | .posInf => 2
  | .nan => 3

/-- `a <= b` as the database evaluates it on float values (finite values
by their numeric order, specials per `GoFloat.rank`). -/
def GoFloat.le (a b : GoFloat) : Bool :=
  match a, b with
  | .finite x, .finite y => decide (x ≤ y)
  | _, _ => a.rank ≤ b.rank

/-- The numeric value of a decimal or hexadecimal digit. -/
def hexDigitVal (c : Char) : Nat :=
  if c.isDigit then c.toNat - '0'.toNat else c.toLower.toNat - 'a'.toNat + 10

/-- The value of a digit list read in base `b`. -/
def digitsValBase (b : Nat) (l : List Char) : Nat :=
  l.foldl (fun n c => n * b + hexDigitVal c) 0

/-- `(negative, rest)` after an optional leading sign. -/
def stripSign : List Char → Bool × List Char
  | '-' :: cs => (true, cs)
  | '+' :: cs => (false, cs)
  | cs => (false, cs)

/-- strconv's `special`, full-string: an optionally signed "inf" or
"infinity" and an unsigned "nan", matched case-insensitively. -/
def parseSpecial (cs : List Char) : Option GoFloat :=
  let (neg, rest) := stripSign cs
  let low := rest.map Char.toLower
  if low = "inf".data ∨ low = "infinity".data then
    some (if neg then .negInf else .posInf)
  else if cs.map Char.toLower = "nan".data then
    some .nan
  else none

/-- The walk of strconv's `underscoreOK`: `saw` is `^` at the start of
the number, `0` after a digit (or the base prefix), `_` after an
underscore and `!` after anything else; every underscore must follow and
be followed by a digit. -/
def underscoreOKCore (hex : Bool) : Char → List Char → Bool
  | saw, [] => saw != '_'
  | saw, c :: cs =>
    if c.isDigit ∨ (hex ∧ 'a' ≤ c.toLower ∧ c.toLower ≤ 'f') then
      underscoreOKCore hex '0' cs
    else if c = '_' then
      (saw == '0') && underscoreOKCore hex '_' cs
    else if saw = '_' then false
    else underscoreOKCore hex '!' cs

/-- strconv's `underscoreOK` over the whole input: sign, then an
optional `0x` base prefix (which counts as a digit for underscore
placement), then the walk. (The `0b`/`0o` prefixes Go also special-cases
here never reach a successful ParseFloat, so their verdict is moot.) -/
def underscoreOK (s : List Char) : Bool :=
  let s1 := (stripSign s).2
  match s1 with
  | '0' :: x :: rest =>
    if x.toLower = 'x' then underscoreOKCore true '0' rest
    else underscoreOKCore false '^' s1
  | _ => underscoreOKCore false '^' s1

/-- The exponent part after `e`/`E`/`p`/`P`: an optional sign, then at
least one digit, with underscores permitted between digits;
`(value, rest)`. (Go clamps the accumulated exponent at 10000, which
changes no value: past it the result over- or underflows either way.) -/
def parseExpPart (cs : List Char) : Option (Int × List Char) :=
  let (eneg, cs1) := stripSign cs
  match cs1 with
  | c :: _ =>
    if c.isDigit then
      let ds := cs1.takeWhile (fun d => d.isDigit ∨ d = '_')
      let rest := cs1.dropWhile (fun d => d.isDigit ∨ d = '_')
      let v : Int := (digitsValBase 10 (ds.filter (fun d => d.isDigit)) : Nat)
      some (if eneg then -v else v, rest)
    else none
  | [] => none

/-- The mantissa of strconv's `readFloat`: digits (of the given base)
interleaved with underscores, at most one dot; `(digits, count of
fractional digits, rest)`, `none` when no digit occurs. -/
def parseMantissa (isDig : Char → Bool) (cs : List Char) :
    Option (List Char × Nat × List Char) :=
  let isM := fun c => isDig c ∨ c = '_'
  let intPart := cs.takeWhile isM
  let rest1 := cs.dropWhile isM
  match rest1 with
  | '.' :: rest2 =>
    let fracPart := rest2.takeWhile isM
    let rest3 := rest2.dropWhile isM
    let di := intPart.filter isDig
    let df := fracPart.filter isDig
    if di = [] ∧ df = [] then none else some (di ++ df, df.length, rest3)
  | _ =>
    let di := intPart.filter isDig
    if di = [] then none else some (di, 0, rest1)

/-- The largest finite float64, `(2^53 - 1) * 2^971`. -/
def maxFloat64 : Rat := (((2 ^ 53 - 1) * 2 ^ 971 : Nat) : Rat)

/-- ParseFloat's ErrRange saturation: a magnitude beyond the largest
finite float64 becomes ±Inf (returned alongside the discarded error).
Finite magnitudes are kept exact under the floats-as-Rat idealization,
which also covers the rounding corners at this boundary and the
rounding of tiny magnitudes toward zero. -/
def saturate (q : Rat) : GoFloat :=
  if q > maxFloat64 then .posInf
  else if q < -maxFloat64 then .negInf
  else .finite q

/-- The requested sign applied to a parsed magnitude. -/
def applySign (neg : Bool) (q : Rat) : Rat := if neg then -q else q

/-- The decimal branch of `readFloat`: mantissa, then an optional
`e`-exponent, consuming the whole string. -/
def parseDecFloat (neg : Bool) (cs0 : List Char) : Option GoFloat :=
  match parseMantissa Char.isDigit cs0 with
  | none => none
  | some (digits, frac, rest1) =>
    match rest1 with
    | [] =>
      some (saturate (applySign neg
        ((digitsValBase 10 digits : Rat) / (10 : Rat) ^ frac)))
    | e :: rest2 =>
      if e.toLower = 'e' then
        match parseExpPart rest2 with
        | some (ev, []) =>
          some (saturate (applySign neg
            ((digitsValBase 10 digits : Rat) * (10 : Rat) ^ ev / (10 : Rat) ^ frac)))
        | _ => none
      else none

/-- Models Go `strconv.ParseFloat(s, 64)`: the special values, then —
with underscore placement validated — a signed decimal mantissa with
optional `e`-exponent, or a `0x` hexadecimal mantissa with mandatory
`p`-exponent (in bits); anything else is a syntax error. -/
def parseGoFloat (s : String) : Option GoFloat :=
  match parseSpecial s.data with
  | some f => some f
  | none =>
    if underscoreOK s.data then
      let (neg, cs0) := stripSign s.data
      match cs0 with
      | '0' :: x :: rest =>
        if x.toLower = 'x' then
          match parseMantissa
              (fun c => c.isDigit ∨ ('a' ≤ c.toLower ∧ c.toLower ≤ 'f')) rest with
          | none => none
          | some (digits, frac, rest1) =>
            match rest1 with
            | p :: rest2 =>
              if p.toLower = 'p' then
                match parseExpPart rest2 with
                | some (ev, []) =>
                  some (saturate (applySign neg
                    ((digitsValBase 16 digits : Rat) * (2 : Rat) ^ ev / (16 : Rat) ^ frac)))
                | _ => none
              else none
            | [] => none
        else parseDecFloat neg cs0
      | _ => parseDecFloat neg cs0
    else none

/-- The error-discarding `gpaMin, _ := strconv.ParseFloat(gpaMinStr, 64)`:
the parsed value — on overflow the ±Inf that ParseFloat returns
alongside ErrRange — or 0 on a syntax error (including the empty
string). -/
def parseFloatOrZero (s : String) : GoFloat :=
  (parseGoFloat s).getD (.finite 0)

/-- One conjunct of the dynamically built WHERE clause of
`filterStudents`. -/
inductive FilterCond where
  | ageBetween (lo hi : Int)
  | gpaBetween (lo hi : GoFloat)
  | orgIn (orgs : List String)
deriving DecidableEq, Repr

/-- The conjuncts `filterStudents` (src/duckdb_demo.go lines 295-334)
appends to `WHERE 1=1`: the age BETWEEN only when both ageMin and ageMax
are non-empty, the gpa BETWEEN likewise, and the organization IN (the
comma-separated list split on commas, no trimming, one bound parameter
per name) only when the list parameter is non-empty. -/
def buildFilterConds (p : FilterParams) : List FilterCond :=
  (if p.ageMin ≠ "" ∧ p.ageMax ≠ "" then
    [.ageBetween (atoiOrZero p.ageMin) (atoiOrZero p.ageMax)] else []) ++
  (if p.gpaMin ≠ "" ∧ p.gpaMax ≠ "" then
    [.gpaBetween (parseFloatOrZero p.gpaMin) (parseFloatOrZero p.gpaMax)] else []) ++
  (if p.organizations ≠ "" then
    [.orgIn (p.organizations.splitOn ",")] else [])

/-- How the database evaluates one conjunct on a row: BETWEEN is
inclusive on both ends (the stored gpa is a finite float compared under
`GoFloat.le`), IN is exact equality against the listed values. -/
def evalFilterCond (s : Student) : FilterCond → Bool
  | .ageBetween lo hi => decide (lo ≤ s.age ∧ s.age ≤ hi)
  | .gpaBetween lo hi =>
    GoFloat.le lo (.finite s.gpa) && GoFloat.le (.finite s.gpa) hi
  | .orgIn orgs => orgs.contains s.organization_name

/-- The rows the filter endpoint returns: those satisfying every
appended conjunct (the handler then answers 200 with the rows as JSON). -/
def filterStudents (p : FilterParams) (t : List Student) : List Student :=
  t.filter (fun s => (buildFilterConds p).all (evalFilterCond s))

/-- C7: a row is returned by the filter endpoint iff it is in the table
and satisfies each criterion that is present — the inclusive age range
only when both age bounds are non-empty, the inclusive gpa range only
when both gpa bounds are non-empty, and exact membership of its
organization in the comma-split list only when that parameter is
non-empty; absent criteria constrain nothing, and each numeric bound is
read with strconv's error-discarding parse, which yields 0 on malformed
input (and the parsed value — exponent, hex, special or saturated —
when the input is well-formed). -/
theorem filter_mem_iff (p : FilterParams) (t : List Student) (s : Student) :
    s ∈ filterStudents p t ↔
      s ∈ t ∧
      ((p.ageMin ≠ "" ∧ p.ageMax ≠ "") →
        atoiOrZero p.ageMin ≤ s.age ∧ s.age ≤ atoiOrZero p.ageMax) ∧
      ((p.gpaMin ≠ "" ∧ p.gpaMax ≠ "") →
        GoFloat.le (parseFloatOrZero p.gpaMin) (GoFloat.finite s.gpa) = true ∧
        GoFloat.le (GoFloat.finite s.gpa) (parseFloatOrZero p.gpaMax) = true) ∧
      (p.organizations ≠ "" →
        s.organization_name ∈ p.organizations.splitOn ",") := by
  rw [filterStudents, List.mem_filter]
  refine and_congr_right (fun _ => ?_)
  unfold buildFilterConds
  by_cases h1 : p.ageMin ≠ "" ∧ p.ageMax ≠ "" <;>
    by_cases h2 : p.gpaMin ≠ "" ∧ p.gpaMax ≠ "" <;>
      by_cases h3 : p.organizations ≠ "" <;>
        simp [h1, h2, h3, evalFilterCond]

/-- Whether a LIKE pattern (wildcards `%` for any run and `_` for one
character, everything else literal, case-sensitively) matches a string,
pattern and string as character lists; `anySuffix f s` is true when `f`
accepts some suffix of `s`. -/
def anySuffix (f : List Char → Bool) : List Char → Bool
  | [] => f []
  | c :: cs => f (c :: cs) || anySuffix f cs

/-- SQL LIKE matching as DuckDB evaluates `name LIKE pattern`. -/
def likeMatch : List Char → List Char → Bool
  | [], s => s.isEmpty
  | c :: ps, s =>
    if c = '%' then anySuffix (likeMatch ps) s
    else
      match s with
      | [] => false
      | d :: ds => (if c = '_' then true else c = d) && likeMatch ps ds

/-- `searchStudentsByName` (src/duckdb_demo.go lines 364-377): the rows
of `SELECT ... WHERE name LIKE ?` with pattern `"%" + q + "%"`. (The
handler then answers 200; the queried rows are never serialized into the
response body — the function ends at a `scan & return JSON` comment.) -/
def searchStudentsByName (t : List Student) (q : String) : List Student :=
  t.filter (fun s => likeMatch ('%' :: (q.data ++ ['%'])) s.name.data)

/-- `headMatchChars needle hay`: the needle is a prefix of the hay,
character by character. -/
def headMatchChars : List Char → List Char → Bool
  | [], _ => true
  | _ :: _, [] => false
  | a :: as, b :: bs => (a = b) && headMatchChars as bs

/-- `containsChars hay needle`: the needle occurs contiguously in the
hay. -/
def containsChars : List Char → List Char → Bool
  | [], needle => needle.isEmpty
  | c :: cs, needle => headMatchChars needle (c :: cs) || containsChars cs needle

/-- The selection C6 describes: the students whose name contains the
query term as a case-sensitive substring. -/
def claimedSearch (t : List Student) (q : String) : List Student :=
  t.filter (fun s => containsChars s.name.data q.data)

/-- Counterexample to C6 as stated: with q = "ann", the claim says
"Anna" is matched; the code's case-sensitive `LIKE '%ann%'` does not
match "Anna" (no lowercase "ann" occurs in it), so the search of a table
holding Anna, Joanna, annabelle and Bob returns only Joanna and
annabelle — Anna is not in the response. -/
theorem search_ann_misses_Anna_cex :
    searchStudentsByName
      [⟨1, "Anna", 20, 3, "X"⟩, ⟨2, "Joanna", 21, 3, "X"⟩,
       ⟨3, "annabelle", 22, 3, "X"⟩, ⟨4, "Bob", 23, 3, "X"⟩] "ann" =
      [⟨2, "Joanna", 21, 3, "X"⟩, ⟨3, "annabelle", 22, 3, "X"⟩] := rfl

theorem anySuffix_likeMatch_nil (s : List Char) :
    anySuffix (likeMatch []) s = true := by
  induction s with
  | nil => rfl
  | cons c cs ih => simp [anySuffix, ih]

theorem likeMatch_append_percent {p : List Char}
    (hp : ∀ c ∈ p, c ≠ '%' ∧ c ≠ '_') (s : List Char) :
    likeMatch (p ++ ['%']) s = headMatchChars p s := by
  induction p generalizing s with
  | nil => simpa [likeMatch, headMatchChars] using anySuffix_likeMatch_nil s
  | cons c ps ih =>
    obtain ⟨hc1, hc2⟩ := hp c (List.mem_cons_self c ps)
    have hp' : ∀ d ∈ ps, d ≠ '%' ∧ d ≠ '_' :=
      fun d hd => hp d (List.mem_cons_of_mem c hd)
    cases s with
    | nil => simp [likeMatch, headMatchChars, hc1]
    | cons d ds => simp [likeMatch, headMatchChars, hc1, hc2, ih hp' ds]

theorem anySuffix_headMatch_eq_contains {p : List Char}
    (hp : ∀ c ∈ p, c ≠ '%' ∧ c ≠ '_') (s : List Char) :
    anySuffix (likeMatch (p ++ ['%'])) s = containsChars s p := by
  induction s with
  | nil =>
    rw [anySuffix, likeMatch_append_percent hp]
    cases p <;> simp [headMatchChars, containsChars]
  | cons c cs ih =>
    rw [anySuffix, likeMatch_append_percent hp, containsChars, ih]

/-- C6 (amended): for a query term free of the LIKE wildcards `%` and
`_`, the search endpoint selects exactly the students whose name
contains the query as a case-sensitive substring; in particular q = ann
matches "Joanna" and "annabelle" but not "Anna" (capital A breaks the
case-sensitive match) and not "Bob". -/
theorem search_selects_substring_matches (t : List Student) (q : String)
    (hq : ∀ c ∈ q.data, c ≠ '%' ∧ c ≠ '_') :
    searchStudentsByName t q = claimedSearch t q := by
  unfold searchStudentsByName claimedSearch
  apply List.filter_congr
  intro s _
  rw [show likeMatch ('%' :: (q.data ++ ['%'])) s.name.data
      = anySuffix (likeMatch (q.data ++ ['%'])) s.name.data by simp [likeMatch]]
  exact anySuffix_headMatch_eq_contains hq s.name.data

/-- Witness for C6 (amended): at q = "ann" (wildcard-free) over the
Anna/Joanna/annabelle/Bob table, the search result is exactly the
substring selection. -/
theorem search_selects_substring_matches_witness :
    searchStudentsByName
      [⟨1, "Anna", 20, 3, "X"⟩, ⟨2, "Joanna", 21, 3, "X"⟩,
       ⟨3, "annabelle", 22, 3, "X"⟩, ⟨4, "Bob", 23, 3, "X"⟩] "ann" =
    claimedSearch
      [⟨1, "Anna", 20, 3, "X"⟩, ⟨2, "Joanna", 21, 3, "X"⟩,
       ⟨3, "annabelle", 22, 3, "X"⟩, ⟨4, "Bob", 23, 3, "X"⟩] "ann" :=
  search_selects_substring_matches _ "ann" (by decide)

/-- One sequentially executed write request, with the bulk insert's
driver-failure oracle attached to the bulk operation. -/
inductive Op where
  | insert (r : StudentReq)
  | bulk (fail : Nat → Option String) (reqs : List StudentReq)
  | update (idStr : String) (r : StudentReq)
  | delete (idStr : String)

/-- The table after one request (the HTTP response is discarded). -/
def applyOp (t : List Student) : Op → List Student
  | .insert r => (insertStudent t r).2
  | .bulk fail reqs => (bulkInsertStudents fail t reqs).2
  | .update idStr r => (updateStudent t idStr r).2
  | .delete idStr => (deleteStudent t idStr).2

/-- The table after a sequence of requests executed one after another. -/
def applyOps (t : List Student) (ops : List Op) : List Student :=
  ops.foldl applyOp t

theorem insertStudent_snd_cases (t : List Student) (r : StudentReq) :
    (insertStudent t r).2 = t ∨
    ∃ row, (insertStudent t r).2 = t ++ [row] ∧ row.id = coalesceMaxId t + 1 := by
  unfold insertStudent
  by_cases h1 : r.age < 0 ∨ r.age > 120
  · left
    simp [h1]
  · by_cases h2 : r.gpa < 0 ∨ r.gpa > 4
    · left
      simp [h1, h2]
    · right
      refine ⟨⟨coalesceMaxId t + 1, trimSpace r.name, r.age, r.gpa,
        if trimSpace r.organization_name = "" then "No Organization"
        else trimSpace r.organization_name⟩, ?_, rfl⟩
      simp [h1, h2]

theorem bulkLoop_ok_elim (fail : Nat → Option String) (reqs : List StudentReq)
    (i : Nat) (nextID : Int) (acc t2 : List Student)
    (h : bulkLoop fail reqs i nextID acc = .ok t2) :
    t2 = acc ++ assignRows nextID reqs := by
  induction reqs generalizing i nextID acc with
  | nil =>
    rw [bulkLoop] at h
    cases h
    simp [assignRows]
  | cons r rs ih =>
    rw [bulkLoop] at h
    cases hf : fail i with
    | some e =>
      rw [hf] at h
      cases h
    | none =>
      rw [hf] at h
      rw [ih _ _ _ h]
      simp [assignRows]

theorem bulkInsert_snd_cases (fail : Nat → Option String) (t : List Student)
    (reqs : List StudentReq) :
    (bulkInsertStudents fail t reqs).2 = t ∨
    (bulkInsertStudents fail t reqs).2 = t ++ assignRows (coalesceMaxId t + 1) reqs := by
  rw [bulkInsertStudents_eq]
  cases h : bulkLoop fail reqs 0 (coalesceMaxId t + 1) t with
  | error e =>
    left
    rfl
  | ok t2 =>
    right
    simpa using bulkLoop_ok_elim fail reqs 0 (coalesceMaxId t + 1) t t2 h

theorem updateStudent_map_id (t : List Student) (idStr : String) (r : StudentReq) :
    ((updateStudent t idStr r).2).map (fun s => s.id) = t.map (fun s => s.id) := by
  unfold updateStudent
  cases h : strconvAtoi idStr with
  | none => rfl
  | some id =>
    by_cases h1 : r.age < 0 ∨ r.age > 120
    · simp [h1]
    · by_cases h2 : r.gpa < 0 ∨ r.gpa > 4
      · simp [h1, h2]
      · by_cases h3 : t.countP (fun s => s.id == id) = 0
        · simp [h1, h2, h3]
        · simp only [h1, h2, h3, if_false, if_true, List.map_map]
          apply List.map_congr_left
          intro s _
          dsimp
          split <;> rfl

theorem deleteStudent_ids_sublist (t : List Student) (idStr : String) :
    List.Sublist (((deleteStudent t idStr).2).map (fun s => s.id))
      (t.map (fun s => s.id)) := by
  unfold deleteStudent
  cases h : strconvAtoi idStr with
  | none => exact List.Sublist.refl _
  | some id => exact (List.filter_sublist t).map _

theorem applyOp_keeps_nodup (t : List Student) (op : Op)
    (h : (t.map (fun s => s.id)).Nodup) :
    ((applyOp t op).map (fun s => s.id)).Nodup := by
  cases op with
  | insert r =>
    rcases insertStudent_snd_cases t r with hc | ⟨row, hc, hrow⟩
    · rw [applyOp, hc]
      exact h
    · rw [applyOp, hc]
      rw [List.map_append, List.nodup_append]
      refine ⟨h, by simp, ?_⟩
      intro x hx hx'
      simp only [List.map_cons, List.map_nil, List.mem_singleton] at hx'
      obtain ⟨s, hs, hsid⟩ := List.mem_map.mp hx
      have hle := mem_le_coalesceMaxId hs
      rw [hsid] at hle
      rw [hx', hrow] at hle
      omega
  | bulk fail reqs =>
    rcases bulkInsert_snd_cases fail t reqs with hc | hc
    · rw [applyOp, hc]
      exact h
    · rw [applyOp, hc]
      rw [List.map_append, List.nodup_append]
      refine ⟨h, ?_, ?_⟩
      · rw [assignRows_map_id]
        refine List.Nodup.map ?_ (List.nodup_range _)
        intro a b hab
        simp only [add_right_inj] at hab
        omega
      · intro x hx hx'
        rw [assignRows_map_id] at hx'
        obtain ⟨s, hs, hsid⟩ := List.mem_map.mp hx
        obtain ⟨i, -, hi⟩ := List.mem_map.mp hx'
        have hle := mem_le_coalesceMaxId hs
        rw [hsid] at hle
        omega
  | update idStr r =>
    rw [applyOp, updateStudent_map_id]
    exact h
  | delete idStr =>
    exact List.Nodup.sublist (deleteStudent_ids_sublist t idStr) h

/-- C10: starting from the empty table, after any sequence of
sequentially executed insert, bulk-insert, update and delete requests
the row ids are pairwise distinct: inserts only assign ids strictly
above every present id, bulk inserts assign a strictly increasing run
above every present id (or change nothing on rollback), updates keep
every id, and deletes only remove rows. -/
theorem sequential_ops_keep_ids_distinct (ops : List Op) :
    ((applyOps [] ops).map (fun s => s.id)).Nodup := by
  suffices h : ∀ t, (t.map (fun s => s.id)).Nodup →
      ((applyOps t ops).map (fun s => s.id)).Nodup from h [] (by simp)
  induction ops with
  | nil =>
    intro t ht
    exact ht
  | cons op rest ih =>
    intro t ht
    exact ih (applyOp t op) (applyOp_keeps_nodup t op ht)

end StudentsDB
